import Mathlib

/-!
Verification of the statistics-and-reconciliation engine of the WoWDBDefs
Python tooling (`dbdanalyze.py`, `dbd_to_mysql.py`).

The Python code is shallowly embedded: every definition below is a direct
translation of the corresponding Python function, with machine-level details
made explicit (Python `int` becomes `Nat`/`Int`, numeric values that may be
either `int` or `float` become `ℚ`, Python `set` becomes `Finset`, dicts
become association lists that preserve insertion order, and `None` becomes
`Option`).
-/

namespace DbdSpec

/-- `dbdwrapper.DbdColumnId`: an immutable (table, column) pair. -/
structure DbdColumnId where
  table : String
  column : String
deriving DecidableEq, Repr

/-- The three value kinds that `generate_stats` can record in `seen_types`
("int", "float", "string").  The Python code stores them as strings but only
ever inserts these three. -/
inductive SeenKind where
  | int
  | float
  | string
deriving DecidableEq, Repr

instance : Fintype SeenKind :=
  ⟨⟨{SeenKind.int, SeenKind.float, SeenKind.string}, by decide⟩, by
    intro x; cases x <;> decide⟩

/-- `dbdanalyze.DbdColumnAnalysis`: the per-column statistics record.
Numeric values (which in Python may be `int` or `float`) are modelled as `ℚ`. -/
structure DbdColumnAnalysis where
  num_rows : Nat := 0
  num_null : Nat := 0
  num_int : Nat := 0
  num_float : Nat := 0
  num_str : Nat := 0
  num_dupe : Nat := 0
  num_zero : Nat := 0
  num_negative : Nat := 0
  num_neg_vals : Nat := 0
  val_min : Option ℚ := none
  val_max : Option ℚ := none
  need_bits : Option Nat := none
  len_min : Option Nat := none
  len_max : Option Nat := none
  seen_types : Finset SeenKind := ∅
  tags : Finset String := ∅
  issues : Finset String := ∅
  fk : Option DbdColumnId := none
deriving DecidableEq

/-- `dbdanalyze.nonemin`: null-tolerant minimum. -/
def nonemin {α : Type} [LinearOrder α] : Option α → Option α → Option α
  | none, b => b
  | some a, none => some a
  | some a, some b => some (min a b)

/-- `dbdanalyze.nonemax`: null-tolerant maximum. -/
def nonemax {α : Type} [LinearOrder α] : Option α → Option α → Option α
  | none, b => b
  | some a, none => some a
  | some a, some b => some (max a b)

/-- `dbdanalyze.DbdColumnAnalysis.__add__`: the statistics merge operator.
Counts add; `num_neg_vals` has the single-sentinel special case; min/max
combine null-tolerantly; the sets union; `fk` is taken from the left
operand. -/
def addAnalysis (s d : DbdColumnAnalysis) : DbdColumnAnalysis where
  num_rows := s.num_rows + d.num_rows
  num_null := s.num_null + d.num_null
  num_int := s.num_int + d.num_int
  num_float := s.num_float + d.num_float
  num_str := s.num_str + d.num_str
  num_dupe := s.num_dupe + d.num_dupe
  num_zero := s.num_zero + d.num_zero
  num_negative := s.num_negative + d.num_negative
  num_neg_vals :=
    if s.num_neg_vals = 1 ∧ d.num_neg_vals = 1 ∧ s.val_min = d.val_min then 1
    else s.num_neg_vals + d.num_neg_vals
  val_min := nonemin s.val_min d.val_min
  val_max := nonemax s.val_max d.val_max
  need_bits := nonemax s.need_bits d.need_bits
  len_min := nonemin s.len_min d.len_min
  len_max := nonemax s.len_max d.len_max
  seen_types := s.seen_types ∪ d.seen_types
  tags := s.tags ∪ d.tags
  issues := s.issues ∪ d.issues
  fk := s.fk

/-- Digits of a numeral, most significant first, to a natural number. -/
def digitsToNat (ds : List Char) : Nat :=
  ds.foldl (fun n c => n * 10 + (c.toNat - '0'.toNat)) 0

/-- Modelled from the Python builtin `int(str)` as used by `generate_stats`:
an optional sign followed by decimal digits.  Exotic accepted forms
(surrounding whitespace, underscores between digits) do not occur in the
data handled by the claims and are not modelled. -/
def parseIntOpt (s : String) : Option Int :=
  match s.toList with
  | [] => none
  | '-' :: ds =>
    if !ds.isEmpty && ds.all Char.isDigit then some (-(digitsToNat ds : Int)) else none
  | '+' :: ds =>
    if !ds.isEmpty && ds.all Char.isDigit then some (digitsToNat ds : Int) else none
  | ds =>
    if ds.all Char.isDigit then some (digitsToNat ds : Int) else none

/-- Unsigned decimal literal with an optional fractional part, as `ℚ`. -/
def parseFloatCore (ds : List Char) : Option ℚ :=
  let intPart := ds.takeWhile (· ≠ '.')
  match ds.dropWhile (· ≠ '.') with
  | [] =>
    if !intPart.isEmpty && intPart.all Char.isDigit then
      some (digitsToNat intPart : ℚ)
    else none
  | _ :: frac =>
    if intPart.all Char.isDigit && frac.all Char.isDigit
        && (!intPart.isEmpty || !frac.isEmpty) then
      some ((digitsToNat intPart : ℚ) + (digitsToNat frac : ℚ) / (10 ^ frac.length))
    else none

/-- Modelled from the Python builtin `float(str)` as used by `generate_stats`:
an optional sign followed by a decimal literal with an optional fractional
part.  Exponent, infinity and nan forms do not occur in the data handled by
the claims and are not modelled. -/
def parseFloatOpt (s : String) : Option ℚ :=
  match s.toList with
  | '-' :: ds => (parseFloatCore ds).map (fun q => -q)
  | '+' :: ds => parseFloatCore ds
  | ds => parseFloatCore ds

/-- Fuel-driven worker for `dedupFirst` (structural recursion on the fuel, so
that the definition reduces inside the kernel). -/
def dedupFirstF : Nat → List String → List String
  | 0, _ => []
  | _ + 1, [] => []
  | n + 1, x :: xs => x :: dedupFirstF n (xs.filter (· ≠ x))

/-- The distinct elements of a list in first-occurrence order: the key set of
the Python `collections.Counter` type built from the list. -/
def dedupFirst (l : List String) : List String := dedupFirstF l.length l

/-- One iteration of the `for v, c in value_counts.items()` loop body of
`generate_stats`: classify the distinct literal `v` (multiplicity `c`) as
int, then float, then string, updating the record accordingly. -/
def statStep (a : DbdColumnAnalysis) (v : String) (c : Nat) : DbdColumnAnalysis :=
  match parseIntOpt v with
  | some x =>
    { a with
      val_min := nonemin a.val_min (some (x : ℚ))
      val_max := nonemax a.val_max (some (x : ℚ))
      num_neg_vals := if x < 0 then a.num_neg_vals + 1 else a.num_neg_vals
      num_negative := if x < 0 then a.num_negative + c else a.num_negative
      num_zero := if x = 0 then a.num_zero + c else a.num_zero
      seen_types := insert SeenKind.int a.seen_types
      num_int := a.num_int + c }
  | none =>
    match parseFloatOpt v with
    | some x =>
      { a with
        val_min := nonemin a.val_min (some x)
        val_max := nonemax a.val_max (some x)
        num_negative := if x < 0 then a.num_negative + c else a.num_negative
        num_neg_vals := if x < 0 then a.num_neg_vals + 1 else a.num_neg_vals
        num_zero := if x = 0 then a.num_zero + c else a.num_zero
        seen_types := insert SeenKind.float a.seen_types
        num_float := a.num_float + c }
    | none =>
      { a with
        len_min := nonemin a.len_min (some v.length)
        len_max := nonemax a.len_max (some v.length)
        seen_types := insert SeenKind.string a.seen_types
        num_str := a.num_str + c }

/-- Python `int.bit_length` of the numerator of an integral `ℚ` (number of
bits of the absolute value). -/
def qBitLength (q : ℚ) : Nat := Nat.size q.num.natAbs

/-- `dbdanalyze.generate_stats`: scan the raw string values of one column and
produce its statistics record.  Empty strings are nulls; distinct non-null
literals are classified with multiplicity; afterwards `int` is dropped from
`seen_types` when `float` was also seen, and `need_bits` is filled in when
the int kind remains. -/
def generate_stats (column : List String) : DbdColumnAnalysis :=
  let without_nulls := column.filter (· ≠ "")
  let keys := dedupFirst without_nulls
  let base : DbdColumnAnalysis :=
    { num_rows := column.length
      num_null := column.length - without_nulls.length
      num_dupe := without_nulls.length - keys.length }
  let a := keys.foldl (fun acc v => statStep acc v (without_nulls.count v)) base
  let a :=
    if SeenKind.int ∈ a.seen_types ∧ SeenKind.float ∈ a.seen_types then
      { a with seen_types := a.seen_types.erase SeenKind.int }
    else a
  if SeenKind.int ∈ a.seen_types then
    { a with
      need_bits := some (max (qBitLength (a.val_min.getD 0)) (qBitLength (a.val_max.getD 0))) }
  else a

/-- Equality of two analysis records on every field except `fk`. -/
def eqExceptFk (a b : DbdColumnAnalysis) : Prop :=
  a.num_rows = b.num_rows ∧ a.num_null = b.num_null ∧ a.num_int = b.num_int ∧
  a.num_float = b.num_float ∧ a.num_str = b.num_str ∧ a.num_dupe = b.num_dupe ∧
  a.num_zero = b.num_zero ∧ a.num_negative = b.num_negative ∧
  a.num_neg_vals = b.num_neg_vals ∧ a.val_min = b.val_min ∧ a.val_max = b.val_max ∧
  a.need_bits = b.need_bits ∧ a.len_min = b.len_min ∧ a.len_max = b.len_max ∧
  a.seen_types = b.seen_types ∧ a.tags = b.tags ∧ a.issues = b.issues

/-- Equality of two analysis records on every field except `num_neg_vals`. -/
def eqExceptNegVals (a b : DbdColumnAnalysis) : Prop :=
  a.num_rows = b.num_rows ∧ a.num_null = b.num_null ∧ a.num_int = b.num_int ∧
  a.num_float = b.num_float ∧ a.num_str = b.num_str ∧ a.num_dupe = b.num_dupe ∧
  a.num_zero = b.num_zero ∧ a.num_negative = b.num_negative ∧
  a.val_min = b.val_min ∧ a.val_max = b.val_max ∧
  a.need_bits = b.need_bits ∧ a.len_min = b.len_min ∧ a.len_max = b.len_max ∧
  a.seen_types = b.seen_types ∧ a.tags = b.tags ∧ a.issues = b.issues ∧
  a.fk = b.fk

/-- The row-accounting invariant of a statistics record (spec §3). -/
def statsInvariant (a : DbdColumnAnalysis) : Prop :=
  a.num_null + a.num_int + a.num_float + a.num_str = a.num_rows

/-- The kind-classification block of `dbdanalyze.infer_type` (its first
if/elif chain).  The trailing `assert False` branch of the Python code is
unreachable (the seen kinds range over the three constructors) and is
modelled as `∅`. -/
def kindTag (s : Finset SeenKind) : Finset String :=
  if 1 < s.card then {"MIXED_TYPES"}
  else if s.card = 0 then {"NO_TYPES"}
  else if SeenKind.int ∈ s then {"INT"}
  else if SeenKind.float ∈ s then {"FLOAT"}
  else if SeenKind.string ∈ s then {"STRING"}
  else ∅

/-- `dbdanalyze.infer_type`: derive the tag set from a statistics record. -/
def infer_type (a : DbdColumnAnalysis) : Finset String :=
  if a.num_rows = 0 then {"NO_DATA"}
  else if a.num_rows ≤ 2 then {"INSUFFICIENT_DATA"}
  else
    kindTag a.seen_types
    ∪ (if a.num_null = 0 then {"NOT_NULL"} else {"NULLABLE"})
    ∪ (if a.num_dupe = 0 then {"UNIQUE"} else (∅ : Finset String))
    ∪ (if SeenKind.int ∈ a.seen_types then
        (if a.num_negative = 0 then {"UNSIGNED"} else ∅)
        ∪ (if a.num_zero = 0 then {"NOT_ZERO"} else {"HAS_ZERO"})
      else ∅)

/-- The main branch of `infer_type` with the four numeric conditions
abstracted into Booleans, so that its behaviour is a function of a finite
domain. -/
def mainTags (s : Finset SeenKind) (bnull bdupe bneg bzero : Bool) : Finset String :=
  kindTag s
  ∪ (if bnull then {"NOT_NULL"} else {"NULLABLE"})
  ∪ (if bdupe then {"UNIQUE"} else (∅ : Finset String))
  ∪ (if SeenKind.int ∈ s then
      (if bneg then {"UNSIGNED"} else ∅)
      ∪ (if bzero then {"NOT_ZERO"} else {"HAS_ZERO"})
    else ∅)

/-- A concrete record exercising the main path of `infer_type`: three rows,
only the int kind, one null, one duplicate, no negatives, one zero. -/
def c9rec : DbdColumnAnalysis :=
  { num_rows := 3, num_null := 1, num_dupe := 1, num_zero := 1,
    seen_types := {SeenKind.int} }

/-- `dbdanalyze.IGNORE_FK`: the explicit ignore-list of (table, column)
pairs. -/
def IGNORE_FK : List DbdColumnId :=
  [⟨"Achievement", "Faction"⟩, ⟨"LFGDungeons", "Faction"⟩]

/-- The FK-referer branch of `dbdanalyze.analyze_table` (its body for a
column whose dbd definition declares a foreign key, after `analysis.fk` has
been set): ignore-listed columns get the `IGNORE_FK` tag; otherwise an int
column with exactly one distinct negative literal at least `-2` has
`NOT_NULL` removed and `NEG_IS_NULL`, `UNSIGNED` added.  The Python code
asserts `val_min is not None` before comparing; an absent `val_min` is
modelled as the comparison failing. -/
def fk_sentinel_fixup (colid : DbdColumnId) (a : DbdColumnAnalysis) :
    DbdColumnAnalysis :=
  if colid ∈ IGNORE_FK then { a with tags := insert "IGNORE_FK" a.tags }
  else if SeenKind.int ∈ a.seen_types ∧ a.num_neg_vals = 1 ∧
      a.val_min.any (fun m => -2 ≤ m) then
    { a with tags := insert "UNSIGNED" (insert "NEG_IS_NULL" (a.tags.erase "NOT_NULL")) }
  else a

/-- `endswith` on strings via their character lists (kernel-reducible). -/
def strEndsWith (s suffix : String) : Bool :=
  s.toList.reverse.take suffix.toList.length == suffix.toList.reverse

/-- Worker for `arrayReSub`: given the reversed character list after the
closing bracket, consume one or more digit-or-`x` characters and then the
opening bracket, returning the remaining (still reversed) characters. -/
def arraySubGo : List Char → Bool → Option (List Char)
  | [], _ => none
  | c :: rest, seen =>
    if c.isDigit || c = 'x' then arraySubGo rest true
    else if c = '[' && seen then some rest
    else none

/-- `dbdanalyze.array_re.sub("", s)`: strip a trailing `[digits-or-x]` group
(the regex `\[[x0-9]+\]$`) from `s` when present, else return `s`. -/
def arrayReSub (s : String) : String :=
  match s.toList.reverse with
  | ']' :: rest =>
    match arraySubGo rest false with
    | some pre => String.mk pre.reverse
    | none => s
  | _ => s

/-- `dbdanalyze.analysis_colname`: array columns are split into slot `[0]`
(kept under its own name) and every other slot (keyed with suffix `[x]`). -/
def analysis_colname (colname : String) : String :=
  if ¬ strEndsWith colname "]" then colname
  else if strEndsWith colname "[0]" then colname
  else arrayReSub colname ++ "[x]"

/-- First-match lookup in an insertion-ordered association list (Python dict
indexing). -/
def lookupA : List (DbdColumnId × DbdColumnAnalysis) → DbdColumnId →
    Option DbdColumnAnalysis
  | [], _ => none
  | (k, v) :: rest, key => if k = key then some v else lookupA rest key

/-- `dbdanalyze.AnalysisData.for_column`: look up the analysis record for a
column, falling back to the `[0]` array slot. -/
def for_column (m : List (DbdColumnId × DbdColumnAnalysis)) (colid : DbdColumnId) :
    Option DbdColumnAnalysis :=
  match lookupA m ⟨colid.table, analysis_colname colid.column⟩ with
  | some a => some a
  | none => lookupA m ⟨colid.table, analysis_colname colid.column ++ "[0]"⟩

/-- The per-referer body of `dbdanalyze.analyze_fk_nulls`, evaluated against
the current state `m` of the analysis map. -/
def fk_nulls_update (m : List (DbdColumnId × DbdColumnAnalysis))
    (ra : DbdColumnAnalysis) : DbdColumnAnalysis :=
  match ra.fk with
  | none => ra
  | some fkid =>
    if "IGNORE_FK" ∈ ra.tags then ra
    else
      match for_column m fkid with
      | none => ra
      | some referent =>
        if SeenKind.int ∉ referent.seen_types then ra
        else if 0 < referent.num_zero then ra
        else if ra.num_zero = 0 then ra
        else { ra with tags := insert "ZERO_IS_NULL" (ra.tags.erase "NOT_NULL") }

/-- Worker for `analyze_fk_nulls`: process the `todo` entries in order; the
`done` prefix already carries updated tags, and lookups during an update see
the partially-updated map, exactly as the Python in-place mutation does. -/
def fkNullsAux : List (DbdColumnId × DbdColumnAnalysis) →
    List (DbdColumnId × DbdColumnAnalysis) → List (DbdColumnId × DbdColumnAnalysis)
  | done, [] => done
  | done, (cid, ra) :: todo =>
    fkNullsAux (done ++ [(cid, fk_nulls_update (done ++ (cid, ra) :: todo) ra)]) todo

/-- `dbdanalyze.analyze_fk_nulls`: the zero-sentinel propagation pass. -/
def analyze_fk_nulls (m : List (DbdColumnId × DbdColumnAnalysis)) :
    List (DbdColumnId × DbdColumnAnalysis) :=
  fkNullsAux [] m

/-- Relation between a record and its image under the zero-sentinel pass:
every statistic field, the seen-kind set, the issue set and the foreign key
are unchanged, and the tag set is either untouched or exactly loses
`NOT_NULL` and gains `ZERO_IS_NULL`. -/
def analysisFrame (a b : DbdColumnAnalysis) : Prop :=
  b.num_rows = a.num_rows ∧ b.num_null = a.num_null ∧ b.num_int = a.num_int ∧
  b.num_float = a.num_float ∧ b.num_str = a.num_str ∧ b.num_dupe = a.num_dupe ∧
  b.num_zero = a.num_zero ∧ b.num_negative = a.num_negative ∧
  b.num_neg_vals = a.num_neg_vals ∧ b.val_min = a.val_min ∧
  b.val_max = a.val_max ∧ b.need_bits = a.need_bits ∧ b.len_min = a.len_min ∧
  b.len_max = a.len_max ∧ b.seen_types = a.seen_types ∧ b.issues = a.issues ∧
  b.fk = a.fk ∧
  (b.tags = a.tags ∨ b.tags = insert "ZERO_IS_NULL" (a.tags.erase "NOT_NULL"))

/-- A referer column with observed zeros, declaring an FK, but carrying the
`IGNORE_FK` tag. -/
def c6referer : DbdColumnAnalysis :=
  { num_zero := 1, tags := {"IGNORE_FK", "NOT_NULL"}, fk := some ⟨"R", "id"⟩ }

/-- An integer referent column with no observed zeros. -/
def c6referent : DbdColumnAnalysis :=
  { num_zero := 0, seen_types := {SeenKind.int} }

/-- A two-entry analysis map with one FK edge `T.c → R.id`. -/
def c6map : List (DbdColumnId × DbdColumnAnalysis) :=
  [(⟨"T", "c"⟩, c6referer), (⟨"R", "id"⟩, c6referent)]

/-- A non-ignored referer with observed zeros pointing at `R.id`. -/
def c6referer2 : DbdColumnAnalysis :=
  { num_zero := 2, tags := {"NOT_NULL", "INT"}, fk := some ⟨"R", "id"⟩ }

/-- Python `table_analysis[key] += analysis` (merging into an existing entry)
or `table_analysis[key] = analysis` (appending a new entry), on an
insertion-ordered association list. -/
def updateTableAnalysis : List (String × DbdColumnAnalysis) → String →
    DbdColumnAnalysis → List (String × DbdColumnAnalysis)
  | [], key, v => [(key, v)]
  | (k, a) :: rest, key, v =>
    if k = key then (k, addAnalysis a v) :: rest
    else (k, a) :: updateTableAnalysis rest key v

/-- The statistics-grouping loop of `dbdanalyze.analyze_table`: for each raw
column in order, generate its statistics and fold them into the record keyed
by `analysis_colname`. -/
def table_analysis (data : List (String × List String)) :
    List (String × DbdColumnAnalysis) :=
  data.foldl
    (fun ta p => updateTableAnalysis ta (analysis_colname p.1) (generate_stats p.2))
    []

/-- `dbd_to_mysql.CTD`: a column type descriptor (type string, signedness,
integer bit width).  `fk_fixup_inner` asserts the widths are present, so the
width is a `Nat`. -/
structure CTD where
  type : String
  is_unsigned : Bool
  int_width : Nat
deriving DecidableEq

/-- One referer of a referent column in the FK graph: its column id, its
(mutable) declared type, and its analysis record when one exists (`none`
models `analysis.for_column` returning nothing). -/
structure RefererEntry where
  colid : DbdColumnId
  decl : CTD
  analysis : Option DbdColumnAnalysis
deriving DecidableEq

/-- Accumulator of the referer survey loop of `dbd_to_mysql.fk_fixup_inner`:
the signed/unsigned counts, the running maximum width, the (mutated)
referers in order, and the `all_cols` / `mismatches` report lines, modelled
as (type, column id) pairs. -/
structure SurveyState where
  refs_signed : Nat
  refs_unsigned : Nat
  refs_maxbits : Nat
  referers : List RefererEntry
  all_cols : List (CTD × DbdColumnId)
  mismatches : List (CTD × DbdColumnId)
deriving DecidableEq

/-- One iteration of the survey loop of `fk_fixup_inner`: unanalyzed and
`IGNORE_FK`-tagged referers are skipped (but kept); otherwise the declared
signedness of the referer is overwritten from its analysis tags, it is counted as
signed or unsigned, the running width maximum is updated, and a mismatch
against the referent type is recorded. -/
def surveyStep (referent_type : CTD) (st : SurveyState) (r : RefererEntry) :
    SurveyState :=
  match r.analysis with
  | none => { st with referers := st.referers ++ [r] }
  | some a =>
    if "IGNORE_FK" ∈ a.tags then { st with referers := st.referers ++ [r] }
    else
      let uns : Bool := decide ("UNSIGNED" ∈ a.tags ∨ "NEG_IS_NULL" ∈ a.tags)
      let decl' : CTD := { r.decl with is_unsigned := uns }
      { refs_signed := st.refs_signed + (if uns then 0 else 1)
        refs_unsigned := st.refs_unsigned + (if uns then 1 else 0)
        refs_maxbits := max st.refs_maxbits decl'.int_width
        referers := st.referers ++ [{ r with decl := decl' }]
        all_cols := st.all_cols ++ [(decl', r.colid)]
        mismatches :=
          if referent_type ≠ decl' then st.mismatches ++ [(decl', r.colid)]
          else st.mismatches }

/-- The whole survey loop, starting from the empty state with
`refs_maxbits` initialised to the declared width of the referent. -/
def survey (referent_type : CTD) (init_maxbits : Nat)
    (referers : List RefererEntry) : SurveyState :=
  referers.foldl (surveyStep referent_type)
    { refs_signed := 0, refs_unsigned := 0, refs_maxbits := init_maxbits,
      referers := [], all_cols := [], mismatches := [] }

/-- `dbd_to_mysql.analysis_check_unsigned`: true when the observed data of
no analyzed referer contains a negative value (unanalyzed referers are skipped). -/
def analysis_check_unsigned (rs : List RefererEntry) : Bool :=
  rs.all fun r =>
    match r.analysis with
    | none => true
    | some a => a.num_negative = 0

/-- Result of reconciling one referent column: the (possibly mutated)
referent declaration, the (possibly mutated) referer entries, and the
MISMATCH diagnostic (`some` of the printed `all_cols` lines) when the
mismatch was irreconcilable. -/
structure FixupResult where
  referent : CTD
  referers : List RefererEntry
  diag : Option (List (CTD × DbdColumnId))
deriving DecidableEq

/-- The per-referent-column body of `dbd_to_mysql.fk_fixup_inner`: survey
the referers, then — when there are mismatches — force signedness/width by
the first matching rule (all signed, all unsigned, statistics say unsigned),
or report the irreconcilable mismatch leaving the surveyed state as is. -/
def fk_fixup_one (rd : CTD) (referers : List RefererEntry) : FixupResult :=
  if (survey rd rd.int_width referers).mismatches = [] then
    ⟨rd, (survey rd rd.int_width referers).referers, none⟩
  else if 0 < (survey rd rd.int_width referers).refs_signed ∧
      (survey rd rd.int_width referers).refs_unsigned = 0 then
    ⟨{ rd with is_unsigned := false, int_width := (survey rd rd.int_width referers).refs_maxbits },
     (survey rd rd.int_width referers).referers.map fun r =>
       { r with decl := { r.decl with int_width := (survey rd rd.int_width referers).refs_maxbits } },
     none⟩
  else if 0 < (survey rd rd.int_width referers).refs_unsigned ∧
      (survey rd rd.int_width referers).refs_signed = 0 then
    ⟨{ rd with is_unsigned := true, int_width := (survey rd rd.int_width referers).refs_maxbits },
     (survey rd rd.int_width referers).referers.map fun r =>
       { r with decl := { r.decl with int_width := (survey rd rd.int_width referers).refs_maxbits } },
     none⟩
  else if analysis_check_unsigned (survey rd rd.int_width referers).referers then
    ⟨{ rd with is_unsigned := true, int_width := (survey rd rd.int_width referers).refs_maxbits },
     (survey rd rd.int_width referers).referers.map fun r =>
       { r with decl := { r.decl with is_unsigned := true, int_width := (survey rd rd.int_width referers).refs_maxbits } },
     none⟩
  else
    ⟨rd, (survey rd rd.int_width referers).referers,
     some (survey rd rd.int_width referers).all_cols⟩

/-- `dbd_to_mysql.fk_fixup` / the referent loop of `fk_fixup_inner`:
reconcile every referent column independently. -/
def fk_fixup (cols : List (CTD × List RefererEntry)) : List FixupResult :=
  cols.map fun p => fk_fixup_one p.1 p.2

/-- A referer that the survey counts as signed: analyzed, not ignore-listed,
and carrying neither `UNSIGNED` nor `NEG_IS_NULL` among its analysis tags. -/
def signedReferer (r : RefererEntry) : Prop :=
  ∃ a, r.analysis = some a ∧ "IGNORE_FK" ∉ a.tags ∧
    "UNSIGNED" ∉ a.tags ∧ "NEG_IS_NULL" ∉ a.tags

/-- The referent used in the C2 counterexample: declared `int`, signed,
32 bits. -/
def c2referent : CTD := ⟨"int", false, 32⟩

/-- Two referers, both *declared* signed; the first carries the `UNSIGNED`
analysis tag, the second carries no tags. -/
def c2referers : List RefererEntry :=
  [⟨⟨"T1", "a"⟩, ⟨"int", false, 32⟩, some { tags := {"UNSIGNED"} }⟩,
   ⟨⟨"T2", "b"⟩, ⟨"int", false, 32⟩, some {}⟩]

/-- What the survey loop does to a single referer entry: nothing when it is
unanalyzed or ignore-listed, otherwise its declared signedness is
overwritten from the analysis tags. -/
def surveyOne (r : RefererEntry) : RefererEntry :=
  match r.analysis with
  | none => r
  | some a =>
    if "IGNORE_FK" ∈ a.tags then r
    else { r with decl := { r.decl with is_unsigned := decide ("UNSIGNED" ∈ a.tags ∨ "NEG_IS_NULL" ∈ a.tags) } }

/-- The referent used in the C3 counterexample: declared `int`, signed,
32 bits. -/
def c3referent : CTD := ⟨"int", false, 32⟩

/-- Two referers that disagree after tag-derived signedness: the first is
declared unsigned but carries no `UNSIGNED` tag and has observed negatives;
the second is declared signed but carries the `UNSIGNED` tag. -/
def c3referers : List RefererEntry :=
  [⟨⟨"TA", "a"⟩, ⟨"int", true, 32⟩, some { num_negative := 5 }⟩,
   ⟨⟨"TB", "b"⟩, ⟨"int", false, 16⟩, some { tags := {"UNSIGNED"} }⟩]

theorem nonemin_comm {α : Type} [LinearOrder α] (a b : Option α) :
    nonemin a b = nonemin b a := by
  cases a <;> cases b <;> simp [nonemin, min_comm]

theorem nonemax_comm {α : Type} [LinearOrder α] (a b : Option α) :
    nonemax a b = nonemax b a := by
  cases a <;> cases b <;> simp [nonemax, max_comm]

theorem nonemin_assoc {α : Type} [LinearOrder α] (a b c : Option α) :
    nonemin (nonemin a b) c = nonemin a (nonemin b c) := by
  cases a <;> cases b <;> cases c <;> simp [nonemin, min_assoc]

theorem nonemax_assoc {α : Type} [LinearOrder α] (a b c : Option α) :
    nonemax (nonemax a b) c = nonemax a (nonemax b c) := by
  cases a <;> cases b <;> cases c <;> simp [nonemax, max_assoc]

/-- C1 (counterexample).  The merge operator is neither fully associative nor
fully commutative: with the three one-value columns `["-1"]`, `["-1"]`,
`["-2"]` the two association orders give `distinctNegativeCount` 2 versus 3
(the single-sentinel special case fires for the first pairing only), and
`foreignKey` is always taken from the left operand, so merging two records
with different `fk` fields is not commutative. -/
theorem claim_C1_counterexample :
    (addAnalysis (addAnalysis (generate_stats ["-1"]) (generate_stats ["-1"]))
        (generate_stats ["-2"])).num_neg_vals ≠
      (addAnalysis (generate_stats ["-1"])
        (addAnalysis (generate_stats ["-1"]) (generate_stats ["-2"]))).num_neg_vals ∧
    (addAnalysis { fk := some ⟨"A", "x"⟩ } { fk := some ⟨"B", "y"⟩ }).fk ≠
      (addAnalysis { fk := some ⟨"B", "y"⟩ } { fk := some ⟨"A", "x"⟩ }).fk := by
  decide

/-- C1 (amended).  The merge operator is associative on every field except
`distinctNegativeCount` (whose single-sentinel special case breaks
associativity) and commutative on every field except `foreignKey`, which is
always carried from the left operand. -/
theorem claim_C1_amended (A B C : DbdColumnAnalysis) :
    eqExceptNegVals (addAnalysis (addAnalysis A B) C)
        (addAnalysis A (addAnalysis B C)) ∧
    eqExceptFk (addAnalysis A B) (addAnalysis B A) ∧
    (addAnalysis A B).fk = A.fk := by
  refine ⟨?_, ?_, rfl⟩
  · simp [eqExceptNegVals, addAnalysis, Nat.add_assoc, nonemin_assoc, nonemax_assoc,
      Finset.union_assoc]
  · have h : (A.num_neg_vals = 1 ∧ B.num_neg_vals = 1 ∧ A.val_min = B.val_min) ↔
        (B.num_neg_vals = 1 ∧ A.num_neg_vals = 1 ∧ B.val_min = A.val_min) := by
      constructor <;> rintro ⟨h1, h2, h3⟩ <;> exact ⟨h2, h1, h3.symm⟩
    refine ⟨Nat.add_comm _ _, Nat.add_comm _ _, Nat.add_comm _ _, Nat.add_comm _ _,
      Nat.add_comm _ _, Nat.add_comm _ _, Nat.add_comm _ _, Nat.add_comm _ _,
      ?_, nonemin_comm _ _, nonemax_comm _ _, nonemax_comm _ _, nonemin_comm _ _,
      nonemax_comm _ _, Finset.union_comm _ _, Finset.union_comm _ _,
      Finset.union_comm _ _⟩
    show (if _ then _ else _) = (if _ then _ else _)
    rw [if_congr h rfl (Nat.add_comm _ _)]

/-- C4 (counterexample).  On the raw values `["1","2.5","3"]` the collector
reports `intCount = 2` and `floatCount = 1`, not `intCount = 0` and
`floatCount = 3`: only `seen_types` collapses when both int and float were
observed; the per-kind counts keep their parse-time classification. -/
theorem claim_C4_counterexample :
    (generate_stats ["1", "2.5", "3"]).num_int ≠ 0 ∧
    (generate_stats ["1", "2.5", "3"]).num_float ≠ 3 := by
  decide

/-- C4 (amended).  On the raw values `["1","2.5","3"]` the collector produces
`seenKinds = {float}` (integer dropped because float was also observed), but
the counts keep their parse-time classification: `intCount = 2`,
`floatCount = 1`. -/
theorem claim_C4_amended :
    (generate_stats ["1", "2.5", "3"]).seen_types = {SeenKind.float} ∧
    (generate_stats ["1", "2.5", "3"]).num_int = 2 ∧
    (generate_stats ["1", "2.5", "3"]).num_float = 1 ∧
    (generate_stats ["1", "2.5", "3"]).num_str = 0 ∧
    (generate_stats ["1", "2.5", "3"]).num_rows = 3 ∧
    (generate_stats ["1", "2.5", "3"]).num_null = 0 := by
  decide

theorem dedupFirstF_subset {n : Nat} {l : List String} :
    ∀ v ∈ dedupFirstF n l, v ∈ l := by
  induction n generalizing l with
  | zero => intro v hv; simp [dedupFirstF] at hv
  | succ n ih =>
    intro v hv
    cases l with
    | nil => simp [dedupFirstF] at hv
    | cons x xs =>
      simp only [dedupFirstF, List.mem_cons] at hv
      rcases hv with h | h
      · exact h ▸ List.mem_cons_self x xs
      · exact List.mem_cons_of_mem x (List.mem_of_mem_filter (ih v h))

theorem count_add_length_filter_ne (x : String) (xs : List String) :
    xs.count x + (xs.filter (· ≠ x)).length = xs.length := by
  induction xs with
  | nil => simp
  | cons y ys ih =>
    by_cases h : y = x
    · rw [h, List.count_cons_self, List.filter_cons]
      have hd : (decide (x ≠ x)) = false := by simp
      rw [hd]
      simp only [Bool.false_eq_true, if_false]
      simp only [List.length_cons]
      omega
    · have hxy : x ≠ y := fun hc => h hc.symm
      rw [List.count_cons_of_ne hxy, List.filter_cons]
      have hd : (decide (y ≠ x)) = true := by simp [h]
      rw [hd]
      simp only [if_true, List.length_cons]
      omega

theorem dedupFirstF_sum_count (n : Nat) :
    ∀ l : List String, l.length ≤ n →
      ((dedupFirstF n l).map (fun v => l.count v)).sum = l.length := by
  induction n with
  | zero =>
    intro l hl
    rcases List.eq_nil_of_length_eq_zero (Nat.le_zero.mp hl) with rfl
    simp [dedupFirstF]
  | succ n ih =>
    intro l hl
    cases l with
    | nil => simp [dedupFirstF]
    | cons x xs =>
      simp only [dedupFirstF, List.map_cons, List.sum_cons, List.count_cons_self]
      have hmap : ∀ v ∈ dedupFirstF n (xs.filter (· ≠ x)),
          (x :: xs).count v = (xs.filter (· ≠ x)).count v := by
        intro v hv
        have hvmem : v ∈ xs.filter (· ≠ x) := dedupFirstF_subset v hv
        have hne : v ≠ x := by
          have := List.of_mem_filter hvmem
          simpa using this
        rw [List.count_cons_of_ne hne, List.count_filter (by simpa using hne)]
      rw [List.map_congr_left hmap,
        ih _ (Nat.le_trans (List.length_filter_le _ _) (Nat.le_of_succ_le_succ hl))]
      have := count_add_length_filter_ne x xs
      simp only [List.length_cons]
      omega

theorem statStep_counts (a : DbdColumnAnalysis) (v : String) (c : Nat) :
    (statStep a v c).num_rows = a.num_rows ∧
    (statStep a v c).num_null = a.num_null ∧
    (statStep a v c).num_int + (statStep a v c).num_float + (statStep a v c).num_str =
      a.num_int + a.num_float + a.num_str + c := by
  unfold statStep
  rcases parseIntOpt v with _ | x
  · rcases parseFloatOpt v with _ | x <;> simp <;> omega
  · simp; omega

theorem foldl_statStep_counts (keys : List String) (f : String → Nat) :
    ∀ base : DbdColumnAnalysis,
      (keys.foldl (fun acc v => statStep acc v (f v)) base).num_rows = base.num_rows ∧
      (keys.foldl (fun acc v => statStep acc v (f v)) base).num_null = base.num_null ∧
      (keys.foldl (fun acc v => statStep acc v (f v)) base).num_int +
        (keys.foldl (fun acc v => statStep acc v (f v)) base).num_float +
        (keys.foldl (fun acc v => statStep acc v (f v)) base).num_str =
        base.num_int + base.num_float + base.num_str + (keys.map f).sum := by
  induction keys with
  | nil => intro base; simp
  | cons k ks ih =>
    intro base
    simp only [List.foldl_cons, List.map_cons, List.sum_cons]
    obtain ⟨h1, h2, h3⟩ := ih (statStep base k (f k))
    obtain ⟨g1, g2, g3⟩ := statStep_counts base k (f k)
    exact ⟨h1.trans g1, h2.trans g2, by omega⟩

/-- C7.  Every record the collector produces satisfies
`nullCount + intCount + floatCount + stringCount = rowCount`, and the merge
operator preserves this invariant. -/
theorem claim_C7 :
    (∀ column : List String, statsInvariant (generate_stats column)) ∧
    (∀ a b : DbdColumnAnalysis,
      statsInvariant a → statsInvariant b → statsInvariant (addAnalysis a b)) := by
  constructor
  · intro column
    unfold generate_stats statsInvariant
    have hlen : (column.filter (· ≠ "")).length ≤ column.length :=
      List.length_filter_le _ _
    have hfold := foldl_statStep_counts (dedupFirst (column.filter (· ≠ "")))
      (fun v => (column.filter (· ≠ "")).count v)
      { num_rows := column.length
        num_null := column.length - (column.filter (· ≠ "")).length
        num_dupe := (column.filter (· ≠ "")).length -
          (dedupFirst (column.filter (· ≠ ""))).length }
    have hsum := dedupFirstF_sum_count (column.filter (· ≠ "")).length
      (column.filter (· ≠ "")) (Nat.le_refl _)
    simp only [dedupFirst] at hfold ⊢
    obtain ⟨h1, h2, h3⟩ := hfold
    split_ifs <;> simp at h1 h2 h3 hsum hlen ⊢ <;> omega
  · intro a b ha hb
    unfold statsInvariant at *
    simp only [addAnalysis]
    omega

/-- C7 (witness). -/
theorem claim_C7_witness :
    statsInvariant (addAnalysis (generate_stats ["1", "x", ""]) (generate_stats ["2.5"])) :=
  claim_C7.2 _ _ (claim_C7.1 ["1", "x", ""]) (claim_C7.1 ["2.5"])

theorem mainTags_spec :
    ∀ (s : Finset SeenKind) (bnull bdupe bneg bzero : Bool),
      ("MIXED_TYPES" ∈ mainTags s bnull bdupe bneg bzero ↔ 1 < s.card) ∧
      ("NO_TYPES" ∈ mainTags s bnull bdupe bneg bzero ↔ s = ∅) ∧
      ("INT" ∈ mainTags s bnull bdupe bneg bzero ↔ s = {SeenKind.int}) ∧
      ("FLOAT" ∈ mainTags s bnull bdupe bneg bzero ↔ s = {SeenKind.float}) ∧
      ("STRING" ∈ mainTags s bnull bdupe bneg bzero ↔ s = {SeenKind.string}) ∧
      ("NOT_NULL" ∈ mainTags s bnull bdupe bneg bzero ↔ bnull = true) ∧
      ("NULLABLE" ∈ mainTags s bnull bdupe bneg bzero ↔ bnull = false) ∧
      ("UNIQUE" ∈ mainTags s bnull bdupe bneg bzero ↔ bdupe = true) ∧
      (SeenKind.int ∈ s →
        ("UNSIGNED" ∈ mainTags s bnull bdupe bneg bzero ↔ bneg = true) ∧
        ("NOT_ZERO" ∈ mainTags s bnull bdupe bneg bzero ↔ bzero = true) ∧
        ("HAS_ZERO" ∈ mainTags s bnull bdupe bneg bzero ↔ bzero = false)) := by
  decide

theorem infer_type_eq_mainTags (a : DbdColumnAnalysis)
    (h0 : ¬ a.num_rows = 0) (h2 : ¬ a.num_rows ≤ 2) :
    infer_type a = mainTags a.seen_types (decide (a.num_null = 0))
      (decide (a.num_dupe = 0)) (decide (a.num_negative = 0))
      (decide (a.num_zero = 0)) := by
  rw [infer_type, if_neg h0, if_neg h2]
  simp only [mainTags, decide_eq_true_eq]

/-- C9.  Type inference evaluates its rules in order: no data and
insufficient data stop early with a singleton tag set; otherwise the tag set
contains MIXED_TYPES / NO_TYPES / exactly one of INT, FLOAT, STRING
according to the seen-kind set; NOT_NULL iff no nulls else NULLABLE; UNIQUE
iff no duplicates; and for integer columns UNSIGNED iff no negatives and
NOT_ZERO / HAS_ZERO according to the zero count. -/
theorem claim_C9 (a : DbdColumnAnalysis) :
    (a.num_rows = 0 → infer_type a = {"NO_DATA"}) ∧
    (0 < a.num_rows → a.num_rows ≤ 2 → infer_type a = {"INSUFFICIENT_DATA"}) ∧
    (2 < a.num_rows →
      ("MIXED_TYPES" ∈ infer_type a ↔ 1 < a.seen_types.card) ∧
      ("NO_TYPES" ∈ infer_type a ↔ a.seen_types = ∅) ∧
      ("INT" ∈ infer_type a ↔ a.seen_types = {SeenKind.int}) ∧
      ("FLOAT" ∈ infer_type a ↔ a.seen_types = {SeenKind.float}) ∧
      ("STRING" ∈ infer_type a ↔ a.seen_types = {SeenKind.string}) ∧
      ("NOT_NULL" ∈ infer_type a ↔ a.num_null = 0) ∧
      ("NULLABLE" ∈ infer_type a ↔ a.num_null ≠ 0) ∧
      ("UNIQUE" ∈ infer_type a ↔ a.num_dupe = 0) ∧
      (SeenKind.int ∈ a.seen_types →
        ("UNSIGNED" ∈ infer_type a ↔ a.num_negative = 0) ∧
        ("NOT_ZERO" ∈ infer_type a ↔ a.num_zero = 0) ∧
        ("HAS_ZERO" ∈ infer_type a ↔ a.num_zero ≠ 0))) := by
  refine ⟨fun h0 => by simp [infer_type, h0], fun hp h2 => ?_, fun h2 => ?_⟩
  · have h0 : ¬ a.num_rows = 0 := by omega
    simp [infer_type, h0, h2]
  · have h0 : ¬ a.num_rows = 0 := by omega
    have h2' : ¬ a.num_rows ≤ 2 := by omega
    rw [infer_type_eq_mainTags a h0 h2']
    have H := mainTags_spec a.seen_types (decide (a.num_null = 0))
      (decide (a.num_dupe = 0)) (decide (a.num_negative = 0))
      (decide (a.num_zero = 0))
    simp only [decide_eq_true_eq, decide_eq_false_iff_not] at H
    simp only [ne_eq]
    exact H

/-- C9 (witness): a concrete record with three rows, only the int kind, a
null, a duplicate, no negatives and a zero, gets the predicted tags. -/
theorem claim_C9_witness :
    ("INT" ∈ infer_type c9rec ↔ c9rec.seen_types = {SeenKind.int}) ∧
    ("NULLABLE" ∈ infer_type c9rec ↔ c9rec.num_null ≠ 0) ∧
    ("UNSIGNED" ∈ infer_type c9rec ↔ c9rec.num_negative = 0) := by
  obtain ⟨-, -, h3⟩ := claim_C9 c9rec
  obtain ⟨-, -, hI, -, -, -, hN, -, hK⟩ := h3 (by decide)
  exact ⟨hI, hN, (hK (by decide)).1⟩

/-- C5.  For an integer FK-referer column with `distinctNegativeCount = 1`
and `valueMin ≥ -2` that is not on the ignore-list, negative-sentinel
detection removes `NOT_NULL` and adds `NEG_IS_NULL` and `UNSIGNED`; for a
column on the ignore-list the detection is suppressed (only the `IGNORE_FK`
tag is added) even when the numeric signal matches. -/
theorem claim_C5 (colid : DbdColumnId) (a : DbdColumnAnalysis) (m : ℚ) :
    (colid ∉ IGNORE_FK → SeenKind.int ∈ a.seen_types → a.num_neg_vals = 1 →
      a.val_min = some m → -2 ≤ m →
      (fk_sentinel_fixup colid a).tags =
        insert "UNSIGNED" (insert "NEG_IS_NULL" (a.tags.erase "NOT_NULL")) ∧
      "NOT_NULL" ∉ (fk_sentinel_fixup colid a).tags ∧
      "NEG_IS_NULL" ∈ (fk_sentinel_fixup colid a).tags ∧
      "UNSIGNED" ∈ (fk_sentinel_fixup colid a).tags) ∧
    (colid ∈ IGNORE_FK →
      (fk_sentinel_fixup colid a).tags = insert "IGNORE_FK" a.tags ∧
      ("NEG_IS_NULL" ∈ (fk_sentinel_fixup colid a).tags ↔
        "NEG_IS_NULL" ∈ a.tags) ∧
      ("NOT_NULL" ∈ (fk_sentinel_fixup colid a).tags ↔
        "NOT_NULL" ∈ a.tags)) := by
  constructor
  · intro hnotig hint hneg hmin hm
    have hc : SeenKind.int ∈ a.seen_types ∧ a.num_neg_vals = 1 ∧
        a.val_min.any (fun m => -2 ≤ m) := by
      refine ⟨hint, hneg, ?_⟩
      rw [hmin]
      simpa using hm
    rw [fk_sentinel_fixup, if_neg hnotig, if_pos hc]
    refine ⟨rfl, ?_, ?_, ?_⟩
    · simp only [Finset.mem_insert]
      push_neg
      exact ⟨by decide, by decide, Finset.not_mem_erase _ _⟩
    · simp
    · simp
  · intro hig
    rw [fk_sentinel_fixup, if_pos hig]
    refine ⟨rfl, ?_, ?_⟩ <;> simp

/-- C5 (witness): the column `T.c` (not ignore-listed) with one distinct
negative value `-1` gets the sentinel tags; the ignore-listed
`Achievement.Faction` with the same statistics does not. -/
theorem claim_C5_witness :
    (fk_sentinel_fixup ⟨"T", "c"⟩
        { num_neg_vals := 1, val_min := some (-1),
          seen_types := {SeenKind.int}, tags := {"NOT_NULL", "INT"} }).tags =
      insert "UNSIGNED" (insert "NEG_IS_NULL"
        ((({"NOT_NULL", "INT"} : Finset String)).erase "NOT_NULL")) ∧
    (fk_sentinel_fixup ⟨"Achievement", "Faction"⟩
        { num_neg_vals := 1, val_min := some (-1),
          seen_types := {SeenKind.int}, tags := {"NOT_NULL", "INT"} }).tags =
      insert "IGNORE_FK" ({"NOT_NULL", "INT"} : Finset String) := by
  constructor
  · exact ((claim_C5 ⟨"T", "c"⟩
      { num_neg_vals := 1, val_min := some (-1),
        seen_types := {SeenKind.int}, tags := {"NOT_NULL", "INT"} } (-1)).1
      (by decide) (by decide) (by decide) rfl (by norm_num)).1
  · exact ((claim_C5 ⟨"Achievement", "Faction"⟩
      { num_neg_vals := 1, val_min := some (-1),
        seen_types := {SeenKind.int}, tags := {"NOT_NULL", "INT"} } (-1)).2
      (by decide)).1

theorem fk_nulls_update_frame (m : List (DbdColumnId × DbdColumnAnalysis))
    (ra : DbdColumnAnalysis) : analysisFrame ra (fk_nulls_update m ra) := by
  have hrefl : analysisFrame ra ra := by
    unfold analysisFrame
    exact ⟨rfl, rfl, rfl, rfl, rfl, rfl, rfl, rfl, rfl, rfl, rfl, rfl, rfl, rfl,
      rfl, rfl, rfl, Or.inl rfl⟩
  unfold fk_nulls_update
  rcases hfk : ra.fk with _ | fkid
  · exact hrefl
  · simp only []
    by_cases h1 : "IGNORE_FK" ∈ ra.tags
    · rw [if_pos h1]; exact hrefl
    · rw [if_neg h1]
      rcases href : for_column m fkid with _ | referent
      · exact hrefl
      · simp only []
        split_ifs <;>
          first
            | exact hrefl
            | exact ⟨rfl, rfl, rfl, rfl, rfl, rfl, rfl, rfl, rfl, rfl, rfl, rfl,
                rfl, rfl, rfl, rfl, hfk.symm, Or.inr rfl⟩

theorem fkNullsAux_frame (todo : List (DbdColumnId × DbdColumnAnalysis)) :
    ∀ done, ∃ out, fkNullsAux done todo = done ++ out ∧
      List.Forall₂ (fun p q => p.1 = q.1 ∧ analysisFrame p.2 q.2) todo out := by
  induction todo with
  | nil => intro done; exact ⟨[], by simp [fkNullsAux], List.Forall₂.nil⟩
  | cons hd tl ih =>
    intro done
    obtain ⟨cid, ra⟩ := hd
    obtain ⟨out, hout, hrel⟩ :=
      ih (done ++ [(cid, fk_nulls_update (done ++ (cid, ra) :: tl) ra)])
    refine ⟨(cid, fk_nulls_update (done ++ (cid, ra) :: tl) ra) :: out, ?_, ?_⟩
    · rw [fkNullsAux, hout]
      simp
    · exact List.Forall₂.cons ⟨rfl, fk_nulls_update_frame _ _⟩ hrel

/-- C10.  The zero-sentinel pass only rewrites tag sets: it keeps every key
in place (no record added, removed or reordered), leaves every statistic
field, the seen-kind set, the issue set and the foreign key of every record
unchanged, and the tags of each record are either untouched or exactly lose
`NOT_NULL` and gain `ZERO_IS_NULL`. -/
theorem claim_C10 (m : List (DbdColumnId × DbdColumnAnalysis)) :
    List.Forall₂ (fun p q => p.1 = q.1 ∧ analysisFrame p.2 q.2)
      m (analyze_fk_nulls m) ∧
    (analyze_fk_nulls m).length = m.length := by
  obtain ⟨out, hout, hrel⟩ := fkNullsAux_frame m []
  have h : analyze_fk_nulls m = out := by
    rw [analyze_fk_nulls, hout, List.nil_append]
  rw [h]
  exact ⟨hrel, (List.Forall₂.length_eq hrel).symm⟩

/-- C6 (counterexample).  The FK edge `T.c → R.id` of `c6map` satisfies every
condition of the claim (integer-typed referent with `zeroCount = 0`, referer
with `zeroCount > 0`), yet the zero-sentinel pass leaves the map unchanged —
no `ZERO_IS_NULL` is added — because the referer carries the `IGNORE_FK`
tag, an exclusion the claim does not allow for. -/
theorem claim_C6_counterexample :
    c6referer.fk = some ⟨"R", "id"⟩ ∧
    for_column c6map ⟨"R", "id"⟩ = some c6referent ∧
    SeenKind.int ∈ c6referent.seen_types ∧
    c6referent.num_zero = 0 ∧
    0 < c6referer.num_zero ∧
    analyze_fk_nulls c6map = c6map ∧
    "ZERO_IS_NULL" ∉ c6referer.tags := by
  decide

/-- C6 (amended).  For an FK edge whose referer is *not* tagged `IGNORE_FK`:
when the referent is integer-typed with no observed zeros and the referer
has observed zeros, the zero-sentinel update removes `NOT_NULL` from the
tags of the referer and adds `ZERO_IS_NULL`; when the referent has observed zeros,
or the referer has none, the referer record is left untouched. -/
theorem claim_C6_amended (m : List (DbdColumnId × DbdColumnAnalysis))
    (ra referent : DbdColumnAnalysis) (fkid : DbdColumnId)
    (hfk : ra.fk = some fkid) (hig : "IGNORE_FK" ∉ ra.tags)
    (href : for_column m fkid = some referent)
    (hint : SeenKind.int ∈ referent.seen_types) :
    (referent.num_zero = 0 → 0 < ra.num_zero →
      (fk_nulls_update m ra).tags =
        insert "ZERO_IS_NULL" (ra.tags.erase "NOT_NULL") ∧
      "NOT_NULL" ∉ (fk_nulls_update m ra).tags ∧
      "ZERO_IS_NULL" ∈ (fk_nulls_update m ra).tags) ∧
    (0 < referent.num_zero → fk_nulls_update m ra = ra) ∧
    (ra.num_zero = 0 → fk_nulls_update m ra = ra) := by
  unfold fk_nulls_update
  rw [hfk]
  simp only []
  rw [if_neg hig, href]
  simp only []
  rw [if_neg (by simpa using hint)]
  refine ⟨?_, ?_, ?_⟩
  · intro hrz hra
    rw [if_neg (by omega), if_neg (by omega)]
    refine ⟨rfl, ?_, by simp⟩
    simp only [Finset.mem_insert]
    push_neg
    exact ⟨by decide, Finset.not_mem_erase _ _⟩
  · intro hrz
    rw [if_pos hrz]
  · intro hra
    by_cases hz : 0 < referent.num_zero
    · rw [if_pos hz]
    · rw [if_neg hz, if_pos hra]

/-- C6 (witness): a non-ignored referer with a zero, pointing at an integer
referent without zeros, loses `NOT_NULL` and gains `ZERO_IS_NULL`. -/
theorem claim_C6_witness :
    (fk_nulls_update c6map c6referer2).tags =
      insert "ZERO_IS_NULL" (c6referer2.tags.erase "NOT_NULL") :=
  ((claim_C6_amended c6map c6referer2
    c6referent ⟨"R", "id"⟩ rfl (by decide) (by decide) (by decide)).1
    (by decide) (by decide)).1

/-- C8 (counterexample).  Sibling array slots are *not* all folded into a
single record: slot `[0]` keeps its own record and only slots `[1]`,
`[2]`, … share the `[x]` record, so a three-slot array column produces two
records, not one. -/
theorem claim_C8_counterexample :
    analysis_colname "Foo[0]" ≠ analysis_colname "Foo[1]" ∧
    analysis_colname "Foo[1]" = analysis_colname "Foo[2]" ∧
    (table_analysis [("Foo[0]", ["1"]), ("Foo[1]", ["2"]), ("Foo[2]", ["3"])]).length
      = 2 := by
  decide

/-- C8 (amended).  The grouping loop folds array-slot siblings into one
record per *analysis key*, of which an array column has two: slot `[0]`
keeps its own record, and all slots from `[1]` on are merged (left-to-right
with the merge operator) into the `[x]` record. -/
theorem claim_C8_amended (v0 v1 v2 : List String) :
    table_analysis [("Foo[0]", v0), ("Foo[1]", v1), ("Foo[2]", v2)] =
      [("Foo[0]", generate_stats v0),
       ("Foo[x]", addAnalysis (generate_stats v1) (generate_stats v2))] := by
  have h0 : analysis_colname "Foo[0]" = "Foo[0]" := by decide
  have h1 : analysis_colname "Foo[1]" = "Foo[x]" := by decide
  have h2 : analysis_colname "Foo[2]" = "Foo[x]" := by decide
  unfold table_analysis
  simp only [List.foldl_cons, List.foldl_nil, h0, h1, h2]
  simp [updateTableAnalysis]

theorem surveyStep_signed (rt : CTD) (st : SurveyState) (r : RefererEntry)
    (h : signedReferer r) :
    surveyStep rt st r =
      { refs_signed := st.refs_signed + 1
        refs_unsigned := st.refs_unsigned
        refs_maxbits := max st.refs_maxbits r.decl.int_width
        referers := st.referers ++ [{ r with decl := { r.decl with is_unsigned := false } }]
        all_cols := st.all_cols ++ [({ r.decl with is_unsigned := false }, r.colid)]
        mismatches :=
          if rt ≠ ({ r.decl with is_unsigned := false } : CTD) then
            st.mismatches ++ [({ r.decl with is_unsigned := false }, r.colid)]
          else st.mismatches } := by
  obtain ⟨a, ha, h1, h2, h3⟩ := h
  unfold surveyStep
  rw [ha]
  simp only []
  rw [if_neg h1]
  have huns : decide ("UNSIGNED" ∈ a.tags ∨ "NEG_IS_NULL" ∈ a.tags) = false := by
    simp [h2, h3]
  simp only [huns]
  simp

theorem survey_signed (rt : CTD) :
    ∀ rs : List RefererEntry, (∀ r ∈ rs, signedReferer r) →
    ∀ st₀ : SurveyState,
      (rs.foldl (surveyStep rt) st₀).refs_unsigned = st₀.refs_unsigned ∧
      (rs.foldl (surveyStep rt) st₀).refs_signed = st₀.refs_signed + rs.length ∧
      (rs.foldl (surveyStep rt) st₀).refs_maxbits =
        (rs.map (fun r => r.decl.int_width)).foldl max st₀.refs_maxbits ∧
      (rs.foldl (surveyStep rt) st₀).referers =
        st₀.referers ++
          rs.map (fun r => { r with decl := { r.decl with is_unsigned := false } }) ∧
      (rs.foldl (surveyStep rt) st₀).mismatches =
        st₀.mismatches ++
          (rs.filter fun r =>
              decide (rt ≠ ({ r.decl with is_unsigned := false } : CTD))).map
            (fun r => (({ r.decl with is_unsigned := false } : CTD), r.colid)) := by
  intro rs
  induction rs with
  | nil => intro _ st₀; simp
  | cons r tl ih =>
    intro h st₀
    have hr := h r (List.mem_cons_self r tl)
    have htl : ∀ x ∈ tl, signedReferer x := fun x hx => h x (List.mem_cons_of_mem r hx)
    rw [List.foldl_cons, surveyStep_signed rt st₀ r hr]
    obtain ⟨i1, i2, i3, i4, i5⟩ := ih htl _
    refine ⟨?_, ?_, ?_, ?_, ?_⟩
    · rw [i1]
    · rw [i2]
      simp only [List.length_cons]
      omega
    · rw [i3]
      rfl
    · rw [i4]
      simp
    · rw [i5]
      by_cases hp : rt ≠ ({ r.decl with is_unsigned := false } : CTD)
      · rw [if_pos hp]
        simp [List.filter_cons, hp]
      · rw [if_neg hp]
        simp [List.filter_cons, hp]

theorem foldl_max_of_all_eq (ws : List Nat) (m : Nat) (h : ∀ w ∈ ws, w = m) :
    ws.foldl max m = m := by
  induction ws with
  | nil => rfl
  | cons w tl ih =>
    rw [List.foldl_cons, h w (List.mem_cons_self w tl), max_self]
    exact ih fun x hx => h x (List.mem_cons_of_mem w hx)

/-- C2 (counterexample).  Every referer of `c2referent` is *declared* signed
and none is declared unsigned, yet the reconciler makes the referent
unsigned: it counts signedness from the analysis tags (`UNSIGNED` /
`NEG_IS_NULL`), not from the declarations, so the tagged referer is counted
unsigned, the counts disagree, and rule 4 (no observed negatives) forces
everything unsigned. -/
theorem claim_C2_counterexample :
    c2referent.is_unsigned = false ∧
    (∀ r ∈ c2referers, r.decl.is_unsigned = false) ∧
    (fk_fixup_one c2referent c2referers).referent.is_unsigned = true := by
  decide

/-- C2 (amended).  When every referer is analyzed, none is ignore-listed,
and the analysis tags of every referer contain neither `UNSIGNED` nor
`NEG_IS_NULL` (what the reconciler treats as signed, overwriting the
declared signedness), one reconciliation pass leaves referent and all
referers signed with bit width the maximum of the declared widths of the
referent and of all referers — for any star graph with at least one referer. -/
theorem claim_C2_amended (rd : CTD) (rs : List RefererEntry)
    (hne : rs ≠ []) (h : ∀ r ∈ rs, signedReferer r) :
    (fk_fixup_one rd rs).referent.is_unsigned = false ∧
    (fk_fixup_one rd rs).referent.int_width =
      (rs.map (fun r => r.decl.int_width)).foldl max rd.int_width ∧
    (fk_fixup_one rd rs).referers.length = rs.length ∧
    ∀ r' ∈ (fk_fixup_one rd rs).referers,
      r'.decl.is_unsigned = false ∧
      r'.decl.int_width =
        (rs.map (fun r => r.decl.int_width)).foldl max rd.int_width := by
  obtain ⟨i1, i2, i3, i4, i5⟩ :=
    survey_signed rd rs h
      { refs_signed := 0, refs_unsigned := 0, refs_maxbits := rd.int_width,
        referers := [], all_cols := [], mismatches := [] }
  have hsurvey :
      survey rd rd.int_width rs = rs.foldl (surveyStep rd)
        { refs_signed := 0, refs_unsigned := 0, refs_maxbits := rd.int_width,
          referers := [], all_cols := [], mismatches := [] } := rfl
  by_cases hmm : (survey rd rd.int_width rs).mismatches = []
  · -- no mismatch: nothing is mutated, but everything already agrees
    have hflt :
        (rs.filter fun r =>
            decide (rd ≠ ({ r.decl with is_unsigned := false } : CTD))) = [] := by
      rw [hsurvey] at hmm
      rw [i5] at hmm
      simpa using hmm
    have hall : ∀ r ∈ rs, ({ r.decl with is_unsigned := false } : CTD) = rd := by
      intro r hrmem
      have := List.filter_eq_nil_iff.mp hflt r hrmem
      simp only [decide_eq_true_eq, ne_eq, not_not] at this
      exact this.symm
    obtain ⟨r0, hr0⟩ := List.exists_mem_of_ne_nil rs hne
    have hrd_signed : rd.is_unsigned = false := by
      have := hall r0 hr0
      have h2 := congrArg CTD.is_unsigned this
      simpa using h2.symm
    have hwidths : ∀ w ∈ rs.map (fun r => r.decl.int_width), w = rd.int_width := by
      intro w hw
      obtain ⟨r, hrmem, rfl⟩ := List.mem_map.mp hw
      have := congrArg CTD.int_width (hall r hrmem)
      simpa using this
    have hM : (rs.map (fun r => r.decl.int_width)).foldl max rd.int_width =
        rd.int_width := foldl_max_of_all_eq _ _ hwidths
    rw [fk_fixup_one, if_pos hmm]
    refine ⟨hrd_signed, by rw [hM], ?_, ?_⟩
    · rw [hsurvey, i4]
      simp
    · intro r' hr'
      rw [hsurvey, i4] at hr'
      simp only [List.nil_append, List.mem_map] at hr'
      obtain ⟨r, hrmem, rfl⟩ := hr'
      refine ⟨rfl, ?_⟩
      have := congrArg CTD.int_width (hall r hrmem)
      simp only [] at this
      rw [hM]
      exact this
  · -- mismatches: rule 2 (everything signed) fires
    have hcond : 0 < (survey rd rd.int_width rs).refs_signed ∧
        (survey rd rd.int_width rs).refs_unsigned = 0 := by
      constructor
      · rw [hsurvey, i2]
        have : rs.length ≠ 0 := fun hc => hne (List.eq_nil_of_length_eq_zero hc)
        omega
      · rw [hsurvey, i1]
    rw [fk_fixup_one, if_neg hmm, if_pos hcond]
    refine ⟨rfl, ?_, ?_, ?_⟩
    · show (survey rd rd.int_width rs).refs_maxbits = _
      rw [hsurvey, i3]
    · rw [hsurvey, i4]
      simp
    · intro r' hr'
      simp only [List.mem_map] at hr'
      obtain ⟨r'', hr''mem, rfl⟩ := hr'
      rw [hsurvey, i4] at hr''mem
      simp only [List.nil_append, List.mem_map] at hr''mem
      obtain ⟨r, hrmem, rfl⟩ := hr''mem
      refine ⟨rfl, ?_⟩
      show (survey rd rd.int_width rs).refs_maxbits = _
      rw [hsurvey, i3]

/-- C2 (witness): a star graph with a signed 16-bit referent and two
referers declared at 32 and 8 bits, all tag-signed, ends all signed at 32
bits. -/
theorem claim_C2_witness :
    (fk_fixup_one ⟨"int", false, 16⟩
      [⟨⟨"T1", "a"⟩, ⟨"int", false, 32⟩, some {}⟩,
       ⟨⟨"T2", "b"⟩, ⟨"int", false, 8⟩, some {}⟩]).referent.is_unsigned = false ∧
    (fk_fixup_one ⟨"int", false, 16⟩
      [⟨⟨"T1", "a"⟩, ⟨"int", false, 32⟩, some {}⟩,
       ⟨⟨"T2", "b"⟩, ⟨"int", false, 8⟩, some {}⟩]).referent.int_width = 32 := by
  have h := claim_C2_amended ⟨"int", false, 16⟩
    [⟨⟨"T1", "a"⟩, ⟨"int", false, 32⟩, some {}⟩,
     ⟨⟨"T2", "b"⟩, ⟨"int", false, 8⟩, some {}⟩]
    (by decide)
    (by
      intro r hr
      simp only [List.mem_cons, List.not_mem_nil, or_false] at hr
      rcases hr with rfl | rfl
      · exact ⟨_, rfl, by decide, by decide, by decide⟩
      · exact ⟨_, rfl, by decide, by decide, by decide⟩)
  exact ⟨h.1, by rw [h.2.1]; decide⟩

theorem surveyStep_referers (rt : CTD) (st : SurveyState) (r : RefererEntry) :
    (surveyStep rt st r).referers = st.referers ++ [surveyOne r] := by
  unfold surveyStep surveyOne
  rcases ha : r.analysis with _ | a
  · rfl
  · dsimp only
    split_ifs with h1 <;> rfl

theorem survey_referers (rt : CTD) :
    ∀ (rs : List RefererEntry) (st₀ : SurveyState),
      (rs.foldl (surveyStep rt) st₀).referers = st₀.referers ++ rs.map surveyOne := by
  intro rs
  induction rs with
  | nil => intro st₀; simp
  | cons r tl ih =>
    intro st₀
    rw [List.foldl_cons, ih, surveyStep_referers]
    simp

theorem surveyStep_mismatch_sub (rt : CTD) (st : SurveyState) (r : RefererEntry)
    (hinv : ∀ p ∈ st.mismatches, p ∈ st.all_cols) :
    ∀ p ∈ (surveyStep rt st r).mismatches, p ∈ (surveyStep rt st r).all_cols := by
  unfold surveyStep
  rcases ha : r.analysis with _ | a
  · exact hinv
  · dsimp only
    split_ifs <;>
      first
        | exact hinv
        | (intro p hp
           rcases List.mem_append.mp hp with h | h
           · exact List.mem_append.mpr (Or.inl (hinv p h))
           · exact List.mem_append.mpr (Or.inr h))
        | (intro p hp
           exact List.mem_append.mpr (Or.inl (hinv p hp)))

theorem survey_mismatch_sub (rt : CTD) :
    ∀ (rs : List RefererEntry) (st₀ : SurveyState),
      (∀ p ∈ st₀.mismatches, p ∈ st₀.all_cols) →
      ∀ p ∈ (rs.foldl (surveyStep rt) st₀).mismatches,
        p ∈ (rs.foldl (surveyStep rt) st₀).all_cols := by
  intro rs
  induction rs with
  | nil => intro st₀ hinv; exact hinv
  | cons r tl ih =>
    intro st₀ hinv
    rw [List.foldl_cons]
    exact ih _ (surveyStep_mismatch_sub rt st₀ r hinv)

theorem surveyOne_fields (r : RefererEntry) :
    (surveyOne r).colid = r.colid ∧ (surveyOne r).decl.type = r.decl.type ∧
    (surveyOne r).decl.int_width = r.decl.int_width ∧
    (surveyOne r).analysis = r.analysis := by
  unfold surveyOne
  rcases ha : r.analysis with _ | a
  · exact ⟨rfl, rfl, rfl, ha⟩
  · dsimp only
    split_ifs with h1
    · exact ⟨rfl, rfl, rfl, ha⟩
    · exact ⟨rfl, rfl, rfl, rfl⟩

/-- C3 (counterexample).  The configuration is irreconcilable (referers
disagree after tag-derived signedness, and one has observed negatives), the
diagnostic is emitted — yet the referer declarations are *not* left
unchanged: the declared signedness of both referers has already been overwritten
from their analysis tags during the survey (`[true, false]` becomes
`[false, true]`). -/
theorem claim_C3_counterexample :
    (survey c3referent c3referent.int_width c3referers).mismatches ≠ [] ∧
    0 < (survey c3referent c3referent.int_width c3referers).refs_signed ∧
    0 < (survey c3referent c3referent.int_width c3referers).refs_unsigned ∧
    analysis_check_unsigned
      (survey c3referent c3referent.int_width c3referers).referers = false ∧
    (fk_fixup_one c3referent c3referers).diag.isSome = true ∧
    c3referers.map (fun r => r.decl.is_unsigned) = [true, false] ∧
    (fk_fixup_one c3referent c3referers).referers.map
      (fun r => r.decl.is_unsigned) = [false, true] := by
  decide

/-- C3 (amended).  In the irreconcilable case the reconciler emits a
diagnostic (which lists every surveyed referer, hence every mismatching
one), leaves the referent declaration and the declared type and
bit width unchanged, and continues with the remaining columns — but each
declared *signedness* of each analyzed, non-ignored referer has already been
overwritten from its analysis tags during the survey. -/
theorem claim_C3_amended (rd : CTD) (rs : List RefererEntry)
    (hm : (survey rd rd.int_width rs).mismatches ≠ [])
    (hs : 0 < (survey rd rd.int_width rs).refs_signed)
    (hu : 0 < (survey rd rd.int_width rs).refs_unsigned)
    (hck : analysis_check_unsigned (survey rd rd.int_width rs).referers = false) :
    fk_fixup_one rd rs =
      ⟨rd, rs.map surveyOne, some (survey rd rd.int_width rs).all_cols⟩ ∧
    (∀ p ∈ (survey rd rd.int_width rs).mismatches,
      p ∈ (survey rd rd.int_width rs).all_cols) ∧
    (∀ r ∈ rs, (surveyOne r).colid = r.colid ∧
      (surveyOne r).decl.type = r.decl.type ∧
      (surveyOne r).decl.int_width = r.decl.int_width ∧
      (surveyOne r).analysis = r.analysis) ∧
    ∀ cols : List (CTD × List RefererEntry), (fk_fixup cols).length = cols.length := by
  refine ⟨?_, ?_, fun r _ => surveyOne_fields r, fun cols => by simp [fk_fixup]⟩
  · rw [fk_fixup_one, if_neg hm,
      if_neg (fun hc => by omega),
      if_neg (fun hc => by omega)]
    rw [if_neg (by simp [hck])]
    have hr : (survey rd rd.int_width rs).referers = rs.map surveyOne := by
      rw [survey, survey_referers]
      simp
    rw [hr]
  · exact survey_mismatch_sub rd rs _ (by intro p hp; simp at hp)

/-- C3 (witness): the concrete irreconcilable configuration `c3referent` /
`c3referers` yields exactly the surveyed referers, the untouched referent
and the diagnostic. -/
theorem claim_C3_witness :
    fk_fixup_one c3referent c3referers =
      ⟨c3referent, c3referers.map surveyOne,
       some (survey c3referent c3referent.int_width c3referers).all_cols⟩ :=
  (claim_C3_amended c3referent c3referers
    (by decide) (by decide) (by decide) (by decide)).1

end DbdSpec
